import Mathlib

/-!
Verification development for the TCP-Based-Chat-Server repository.

The Python sources are shallowly embedded as executable Lean definitions:

* `src/tcp_chat_system/chat_protocol.py` — the shared protocol module:
  `Message` (eight fields) with `calculate_checksum`, `is_valid`,
  `to_bytes`/`from_bytes`, and `validate_username`, embedded below as
  `ProtoMessage` and friends.
* `src/tcp_chat_system/tcp_chat_server.py` — the server, with its own
  embedded six-field `Message` class (`SrvMessage` below), the
  `CongestionControl` state machine, and the reliability logic of
  `ClientConnection` (`handle_ack`, the retransmission scan of
  `_sender_worker`) and `ChatServer._process_message`.

Machine reals (Python floats) are embedded as `ℚ`; all float operations the
claims touch (`+1`, `/2`, `*2`, `max`, the Jacobson coefficients 0.875/0.125
and 0.75/0.25, which are exact binary floats) are exact in the ranges of
interest, so rational arithmetic is a faithful model.  A message timestamp is
carried as the string Python's `str()` produces for it, because every use in
the embedded code (f-string concatenation for the checksum, JSON
serialization) consumes exactly that rendering, and `repr` is injective on
floats.  `hashlib.sha256` is embedded as a full executable SHA-256 (FIPS
180-4) over the UTF-8 bytes, validated against the standard test vector.
-/

namespace TcpChat

/-! ## SHA-256 (embedding of `hashlib.sha256(data.encode()).hexdigest()`) -/

/-- Word arithmetic modulus 2^32. -/
def w32 : Nat := 4294967296

/-- Right rotation of a 32-bit word. -/
def rotr32 (n x : Nat) : Nat := ((x >>> n) ||| (x <<< (32 - n))) % w32

/-- SHA-256 big sigma-0. -/
def bigSigma0 (x : Nat) : Nat := (rotr32 2 x) ^^^ (rotr32 13 x) ^^^ (rotr32 22 x)

/-- SHA-256 big sigma-1. -/
def bigSigma1 (x : Nat) : Nat := (rotr32 6 x) ^^^ (rotr32 11 x) ^^^ (rotr32 25 x)

/-- SHA-256 small sigma-0. -/
def smallSigma0 (x : Nat) : Nat := (rotr32 7 x) ^^^ (rotr32 18 x) ^^^ (x >>> 3)

/-- SHA-256 small sigma-1. -/
def smallSigma1 (x : Nat) : Nat := (rotr32 17 x) ^^^ (rotr32 19 x) ^^^ (x >>> 10)

/-- SHA-256 choice function (32-bit complement written as xor with ones). -/
def chF (x y z : Nat) : Nat := (x &&& y) ^^^ ((x ^^^ 4294967295) &&& z)

/-- SHA-256 majority function. -/
def majF (x y z : Nat) : Nat := (x &&& y) ^^^ (x &&& z) ^^^ (y &&& z)

/-- The 64 SHA-256 round constants (FIPS 180-4, in decimal). -/
def sha256K : List Nat :=
  [1116352408, 1899447441, 3049323471, 3921009573, 961987163, 1508970993,
   2453635748, 2870763221, 3624381080, 310598401, 607225278, 1426881987,
   1925078388, 2162078206, 2614888103, 3248222580, 3835390401, 4022224774,
   264347078, 604807628, 770255983, 1249150122, 1555081692, 1996064986,
   2554220882, 2821834349, 2952996808, 3210313671, 3336571891, 3584528711,
   113926993, 338241895, 666307205, 773529912, 1294757372, 1396182291,
   1695183700, 1986661051, 2177026350, 2456956037, 2730485921, 2820302411,
   3259730800, 3345764771, 3516065817, 3600352804, 4094571909, 275423344,
   430227734, 506948616, 659060556, 883997877, 958139571, 1322822218,
   1537002063, 1747873779, 1955562222, 2024104815, 2227730452, 2361852424,
   2428436474, 2756734187, 3204031479, 3329325298]

/-- The eight working registers of the SHA-256 compression function. -/
structure Sha256Regs where
  a : Nat
  b : Nat
  c : Nat
  d : Nat
  e : Nat
  f : Nat
  g : Nat
  h : Nat
deriving DecidableEq, Repr

/-- Initial SHA-256 hash value (FIPS 180-4, in decimal). -/
def sha256Init : Sha256Regs :=
  ⟨1779033703, 3144134277, 1013904242, 2773480762,
   1359893119, 2600822924, 528734635, 1541459225⟩

/-- Extend 16 message-schedule words to 64. -/
def sha256Schedule (ws : List Nat) : List Nat :=
  (List.range 48).foldl
    (fun acc _ =>
      let i := acc.length
      let x := smallSigma1 (acc.getD (i - 2) 0)
      let y := acc.getD (i - 7) 0
      let z := smallSigma0 (acc.getD (i - 15) 0)
      let w := acc.getD (i - 16) 0
      acc ++ [(x + y + z + w) % w32]) ws

/-- One SHA-256 compression round. -/
def sha256Round (r : Sha256Regs) (kw : Nat × Nat) : Sha256Regs :=
  let t1 := (r.h + bigSigma1 r.e + chF r.e r.f r.g + kw.1 + kw.2) % w32
  let t2 := (bigSigma0 r.a + majF r.a r.b r.c) % w32
  ⟨(t1 + t2) % w32, r.a, r.b, r.c, (r.d + t1) % w32, r.e, r.f, r.g⟩

/-- Compress one 16-word chunk into the running hash. -/
def sha256Compress (st : Sha256Regs) (chunk : List Nat) : Sha256Regs :=
  let ws := sha256Schedule chunk
  let z := (sha256K.zip ws).foldl sha256Round st
  ⟨(st.a + z.a) % w32, (st.b + z.b) % w32, (st.c + z.c) % w32, (st.d + z.d) % w32,
   (st.e + z.e) % w32, (st.f + z.f) % w32, (st.g + z.g) % w32, (st.h + z.h) % w32⟩

/-- Big-endian byte rendering of a number on `n` bytes. -/
def bytesBE : Nat → Nat → List Nat
  | 0, _ => []
  | n + 1, v => bytesBE n (v / 256) ++ [v % 256]

/-- SHA-256 padding: append 0x80, zeros to 56 mod 64, and the 8-byte bit length. -/
def sha256Pad (msg : List Nat) : List Nat :=
  msg ++ [128] ++ List.replicate ((119 - msg.length % 64) % 64) 0 ++ bytesBE 8 (msg.length * 8)

/-- Group bytes into big-endian 32-bit words. -/
def wordsOfBytes : List Nat → List Nat
  | b0 :: b1 :: b2 :: b3 :: rest =>
      (((b0 * 256 + b1) * 256 + b2) * 256 + b3) :: wordsOfBytes rest
  | _ => []

/-- Split a word list into `n` chunks of 16 words. -/
def chunks16 : Nat → List Nat → List (List Nat)
  | 0, _ => []
  | n + 1, ws => ws.take 16 :: chunks16 n (ws.drop 16)

/-- SHA-256 of a byte list, as the eight final hash words. -/
def sha256Words (msg : List Nat) : Sha256Regs :=
  let ws := wordsOfBytes (sha256Pad msg)
  (chunks16 (ws.length / 16) ws).foldl sha256Compress sha256Init

/-- Lowercase hex digit for a nibble, as Python's `hexdigest` produces. -/
def hexDigit (n : Nat) : Char :=
  if n < 10 then Char.ofNat (48 + n) else Char.ofNat (87 + n)

/-- Eight lowercase hex digits of a 32-bit word, most significant first. -/
def hexWord (v : Nat) : List Char :=
  (List.range 8).map (fun i => hexDigit (v / 16 ^ (7 - i) % 16))

/-- The 64 hex characters of a SHA-256 digest. -/
def sha256HexChars (msg : List Nat) : List Char :=
  let r := sha256Words msg
  hexWord r.a ++ hexWord r.b ++ hexWord r.c ++ hexWord r.d ++
  hexWord r.e ++ hexWord r.f ++ hexWord r.g ++ hexWord r.h

/-- UTF-8 bytes of one character (embedding of Python `str.encode()`). -/
def utf8Char (c : Char) : List Nat :=
  let n := c.toNat
  if n < 128 then [n]
  else if n < 2048 then [192 + n / 64, 128 + n % 64]
  else if n < 65536 then [224 + n / 4096, 128 + n / 64 % 64, 128 + n % 64]
  else [240 + n / 262144, 128 + n / 4096 % 64, 128 + n / 64 % 64, 128 + n % 64]

/-- UTF-8 bytes of a string. -/
def utf8Encode (s : String) : List Nat := (s.data.map utf8Char).flatten

/-- Embedding of `hashlib.sha256(s.encode()).hexdigest()[:16]`, the common
checksum tail of every `calculate_checksum` in the repository. -/
def hexdigest16 (s : String) : String :=
  String.mk ((sha256HexChars (utf8Encode s)).take 16)

/-- Sanity check of the SHA-256 embedding against the FIPS 180-4 "abc" test
vector. -/
theorem sha256_test_vector_abc :
    String.mk (sha256HexChars (utf8Encode "abc")) =
      "ba7816bf8f01cfea414140de5dae2223b00361a396177a9cb410ff61f20015ad" := by
  decide

/-! ## Message types and the two checksum implementations

`chat_protocol.py` declares a nine-member `MessageType`; the copies embedded
in `tcp_chat_server.py` and `tcp_chat_client.py` declare only the first six
members.  One Lean inductive carries all nine; the server-side code below
only ever mentions the first six constructors. -/

/-- Message type enumeration (`MessageType` in the sources). -/
inductive MessageType
  | chat
  | ack
  | heartbeat
  | join
  | leave
  | retransmit
  | server_info
  | user_list
  | private_message
deriving DecidableEq, Repr

/-- The `.value` string of each enum member. -/
def msgTypeValue : MessageType → String
  | .chat => "chat"
  | .ack => "ack"
  | .heartbeat => "heartbeat"
  | .join => "join"
  | .leave => "leave"
  | .retransmit => "retransmit"
  | .server_info => "server_info"
  | .user_list => "user_list"
  | .private_message => "private_message"

/-- Embedding of `MessageType(value)`: the enum lookup by value string used in
`from_bytes` (raising `ValueError`, here `none`, on an unknown value). -/
def msgTypeOfValue (s : String) : Option MessageType :=
  if s = "chat" then some .chat
  else if s = "ack" then some .ack
  else if s = "heartbeat" then some .heartbeat
  else if s = "join" then some .join
  else if s = "leave" then some .leave
  else if s = "retransmit" then some .retransmit
  else if s = "server_info" then some .server_info
  else if s = "user_list" then some .user_list
  else if s = "private_message" then some .private_message
  else none

/-- The `Message` dataclass of the shared protocol module
`chat_protocol.py`: eight fields.  `timestamp` is carried as the string
Python's `str()` renders for the float (see the header comment). -/
structure ProtoMessage where
  msg_id : String
  msg_type : MessageType
  sender : String
  content : String
  timestamp : String
  checksum : String
  priority : Int
  sequence_number : Int
deriving DecidableEq, Repr

/-- The checksum input of `chat_protocol.Message.calculate_checksum`, the
f-string `f"{msg_id}{msg_type.value}{sender}{content}{timestamp}{priority}{sequence_number}"`. -/
def protoChecksumData (m : ProtoMessage) : String :=
  m.msg_id ++ msgTypeValue m.msg_type ++ m.sender ++ m.content ++ m.timestamp
    ++ toString m.priority ++ toString m.sequence_number

/-- Embedding of `chat_protocol.Message.calculate_checksum`. -/
def ProtoMessage.calculate_checksum (m : ProtoMessage) : String :=
  hexdigest16 (protoChecksumData m)

/-- Embedding of `chat_protocol.Message.is_valid`. -/
def ProtoMessage.is_valid (m : ProtoMessage) : Bool :=
  m.checksum = m.calculate_checksum

/-- Embedding of `chat_protocol.Message.__post_init__`: fill in the checksum
when the field is empty (Python: `if not self.checksum`). -/
def protoPostInit (m : ProtoMessage) : ProtoMessage :=
  if m.checksum = "" then { m with checksum := m.calculate_checksum } else m

/-- The `Message` dataclass embedded in `tcp_chat_server.py` (and identically
in `tcp_chat_client.py`): six fields only — no `priority`, no
`sequence_number`. -/
structure SrvMessage where
  msg_id : String
  msg_type : MessageType
  sender : String
  content : String
  timestamp : String
  checksum : String
deriving DecidableEq, Repr

/-- The checksum input of the server's embedded
`Message.calculate_checksum`, the f-string
`f"{msg_id}{msg_type.value}{sender}{content}{timestamp}"`. -/
def srvChecksumData (m : SrvMessage) : String :=
  m.msg_id ++ msgTypeValue m.msg_type ++ m.sender ++ m.content ++ m.timestamp

/-- Embedding of the server-embedded `Message.calculate_checksum`. -/
def SrvMessage.calculate_checksum (m : SrvMessage) : String :=
  hexdigest16 (srvChecksumData m)

/-- Embedding of the server-embedded `Message.is_valid`. -/
def SrvMessage.is_valid (m : SrvMessage) : Bool :=
  m.checksum = m.calculate_checksum

/-! ## C1: the two `calculate_checksum` implementations -/

/-- C1 counterexample: on a message whose shared fields agree
(`msg_id = "m1"`, type CHAT, `sender = "alice"`, `content = "hi"`,
`timestamp = 1234.5`, with protocol-side `priority = 1` and
`sequence_number = 0`), the shared protocol module's `calculate_checksum`
and the server's embedded `calculate_checksum` return different strings —
they are not byte-identical. -/
theorem checksum_impls_disagree :
    ProtoMessage.calculate_checksum ⟨"m1", .chat, "alice", "hi", "1234.5", "", 1, 0⟩ ≠
      SrvMessage.calculate_checksum ⟨"m1", .chat, "alice", "hi", "1234.5", ""⟩ ∧
    ProtoMessage.calculate_checksum ⟨"m1", .chat, "alice", "hi", "1234.5", "", 1, 0⟩ =
      "cdf090cded6198ee" ∧
    SrvMessage.calculate_checksum ⟨"m1", .chat, "alice", "hi", "1234.5", ""⟩ =
      "b4d25d6e19392a2d" := by
  decide

/-- C1 amended: the protocol module hashes the seven-field concatenation
`msg_id||type||sender||content||timestamp||priority||sequence_number`, while
the server's embedded class hashes only the five-field prefix
`msg_id||type||sender||content||timestamp` (its `Message` has no `priority`
or `sequence_number`); on messages whose shared fields agree, the protocol
checksum input is the server checksum input extended by the stringified
`priority` and `sequence_number`. -/
theorem checksum_proto_extends_server (p : ProtoMessage) (s : SrvMessage)
    (h1 : p.msg_id = s.msg_id) (h2 : p.msg_type = s.msg_type)
    (h3 : p.sender = s.sender) (h4 : p.content = s.content)
    (h5 : p.timestamp = s.timestamp) :
    p.calculate_checksum =
      hexdigest16 (srvChecksumData s ++ toString p.priority ++ toString p.sequence_number) ∧
    s.calculate_checksum = hexdigest16 (srvChecksumData s) := by
  constructor
  · simp only [ProtoMessage.calculate_checksum, protoChecksumData, srvChecksumData,
      h1, h2, h3, h4, h5]
  · rfl

/-- Witness for `checksum_proto_extends_server` at the concrete message of the
counterexample. -/
theorem checksum_proto_extends_server_witness :
    ProtoMessage.calculate_checksum ⟨"m1", .chat, "alice", "hi", "1234.5", "", 1, 0⟩ =
      hexdigest16 (srvChecksumData ⟨"m1", .chat, "alice", "hi", "1234.5", ""⟩
        ++ toString (1 : Int) ++ toString (0 : Int)) ∧
    SrvMessage.calculate_checksum ⟨"m1", .chat, "alice", "hi", "1234.5", ""⟩ =
      hexdigest16 (srvChecksumData ⟨"m1", .chat, "alice", "hi", "1234.5", ""⟩) :=
  checksum_proto_extends_server
    ⟨"m1", .chat, "alice", "hi", "1234.5", "", 1, 0⟩
    ⟨"m1", .chat, "alice", "hi", "1234.5", ""⟩ rfl rfl rfl rfl rfl

/-! ## Username validation (`chat_protocol.validate_username`) and the
server's JOIN handling -/

/-- The allowed-character set literal of `validate_username`. -/
def allowed_chars : List Char :=
  "abcdefghijklmnopqrstuvwxyzABCDEFGHIJKLMNOPQRSTUVWXYZ0123456789_-".data

/-- Embedding of `chat_protocol.validate_username` (`startswith('-')` is the
test on the first character). -/
def validate_username (username : String) : Bool :=
  if username = "" then false
  else if username.length < 1 ∨ username.length > 32 then false
  else if username.data.all (fun c => allowed_chars.contains c) = false then false
  else if username.data.head? = some '-' then false
  else true

/-- The username rule as the spec words it (length 1–32, characters in
`[A-Za-z0-9_-]`, not starting with a hyphen), for comparison with the
source's `validate_username`. -/
def usernameRule (u : String) : Prop :=
  1 ≤ u.length ∧ u.length ≤ 32 ∧ (∀ c ∈ u.data, c ∈ allowed_chars) ∧
    u.data.head? ≠ some '-'

/-- The per-connection fields of `ClientConnection` that
`ChatServer._process_message` and `_disconnect_client` touch in the JOIN and
LEAVE paths. -/
structure ConnInfo where
  username : String
  running : Bool
deriving DecidableEq, Repr

/-- Embedding of the effect of `ChatServer._process_message` on the receiving
connection's `username`/`running` fields: JOIN assigns
`username := message.content` with no validation, LEAVE disconnects (close
sets `running := False`), every other type leaves both fields unchanged.
The ACK synthesis and broadcasts the same function performs touch other
state and are modelled separately. -/
def processMessageConn (conn : ConnInfo) (m : SrvMessage) : ConnInfo :=
  match m.msg_type with
  | .join => { conn with username := m.content }
  | .leave => { conn with running := false }
  | _ => conn

/-! ## Wire payload and round-trip (`to_bytes` / `from_bytes` of
`chat_protocol.py`) -/

/-- A scalar JSON value as it appears in the message payload.  A float is
carried by its Python `repr` (which `json.dumps` emits and `json.loads`
parses back to the same float). -/
inductive JVal
  | jstr (s : String)
  | jfloat (r : String)
  | jint (i : Int)
deriving DecidableEq, Repr

/-- Embedding of `chat_protocol.Message.to_bytes` at the JSON-object level:
`asdict(self)` in dataclass field order with `msg_type` replaced by its
value string, as `json.dumps` serializes it.  The 4-byte length prefix and
the `dumps`/`loads` byte layer (which round-trips this object exactly, a
Python stdlib guarantee) are collapsed, so `from_bytes` below consumes the
object itself. -/
def toBytesPayload (m : ProtoMessage) : List (String × JVal) :=
  [("msg_id", .jstr m.msg_id),
   ("msg_type", .jstr (msgTypeValue m.msg_type)),
   ("sender", .jstr m.sender),
   ("content", .jstr m.content),
   ("timestamp", .jfloat m.timestamp),
   ("checksum", .jstr m.checksum),
   ("priority", .jint m.priority),
   ("sequence_number", .jint m.sequence_number)]

/-- Key lookup in a JSON object (Python dict indexing; keys are unique). -/
def lookupKey : List (String × JVal) → String → Option JVal
  | [], _ => none
  | (k, v) :: rest, key => if k = key then some v else lookupKey rest key

/-- Embedding of `chat_protocol.Message.from_bytes` on the decoded JSON
object: convert `msg_type` through the enum (unknown value raises, here
`none`), build the dataclass (`checksum`/`priority`/`sequence_number` fall
back to their dataclass defaults when absent), and run `__post_init__`.
Failure paths (missing key, unknown enum value, ill-typed field) collapse to
`none`. -/
def fromBytesPayload (d : List (String × JVal)) : Option ProtoMessage :=
  match lookupKey d "msg_type" with
  | some (.jstr tv) =>
    match msgTypeOfValue tv with
    | some mt =>
      match lookupKey d "msg_id", lookupKey d "sender", lookupKey d "content",
            lookupKey d "timestamp" with
      | some (.jstr mid), some (.jstr sdr), some (.jstr cnt), some (.jfloat ts) =>
        let ck := match lookupKey d "checksum" with
          | some (.jstr c) => c
          | _ => ""
        let pr := match lookupKey d "priority" with
          | some (.jint i) => i
          | _ => 1
        let sq := match lookupKey d "sequence_number" with
          | some (.jint i) => i
          | _ => 0
        some (protoPostInit ⟨mid, mt, sdr, cnt, ts, ck, pr, sq⟩)
      | _, _, _, _ => none
    | none => none
  | _ => none

/-! ## Helper lemmas for C7 and C8 -/

/-- The digest hex string always has 64 characters. -/
theorem sha256HexChars_length (msg : List Nat) : (sha256HexChars msg).length = 64 := by
  simp [sha256HexChars, hexWord]

/-- The truncated checksum always has 16 characters. -/
theorem hexdigest16_length (s : String) : (hexdigest16 s).length = 16 := by
  show ((sha256HexChars (utf8Encode s)).take 16).length = 16
  simp [sha256HexChars_length]

/-- A computed checksum is never the empty string, so `__post_init__` leaves
it alone on re-decode. -/
theorem hexdigest16_ne_empty (s : String) : hexdigest16 s ≠ "" := by
  intro h
  have h0 : (hexdigest16 s).length = 0 := by rw [h]; rfl
  rw [hexdigest16_length] at h0
  exact absurd h0 (by norm_num)

/-- Enum value round-trip: `MessageType(t.value) = t`. -/
theorem msgTypeOfValue_msgTypeValue (t : MessageType) :
    msgTypeOfValue (msgTypeValue t) = some t := by
  cases t <;> rfl

/-- `__post_init__` is the identity on a message whose checksum verifies. -/
theorem protoPostInit_of_valid (m : ProtoMessage) (h : m.is_valid = true) :
    protoPostInit m = m := by
  have hck : m.checksum = m.calculate_checksum := by
    simpa [ProtoMessage.is_valid] using h
  have hne : m.checksum ≠ "" := by
    rw [hck]
    exact hexdigest16_ne_empty _
  simp [protoPostInit, hne]

/-! ## C7: JOIN handling versus the username validator -/

/-- C7 counterexample: a JOIN carrying the name `"-bad"` (which fails
`validate_username`) is not rejected — the server sets the connection's
username to `"-bad"` and leaves the connection running. -/
theorem join_accepts_invalid_username :
    processMessageConn ⟨"", true⟩ ⟨"j1", .join, "-bad", "-bad", "1.0", "c"⟩ =
      ⟨"-bad", true⟩ ∧
    validate_username "-bad" = false ∧
    validate_username "ok_name_1" = true := by
  decide

/-- C7 amended: `chat_protocol.validate_username` implements exactly the rule
(length 1–32, characters in `[A-Za-z0-9_-]`, no leading hyphen), but the
server's JOIN handler never calls it: it sets `username := message.content`
unconditionally and leaves the connection running, for conforming and
non-conforming names alike. -/
theorem validate_username_rule_and_join_unvalidated :
    (∀ u, validate_username u = true ↔ usernameRule u) ∧
    (∀ (conn : ConnInfo) (m : SrvMessage), m.msg_type = .join →
      processMessageConn conn m = { conn with username := m.content }) := by
  constructor
  · intro u
    unfold validate_username usernameRule
    split_ifs with h1 h2 h3 h4
    · subst h1
      simp only [false_iff]
      rintro ⟨ha, -, -, -⟩
      exact absurd ha (by decide)
    · simp only [false_iff]
      rintro ⟨ha, hb, -, -⟩
      omega
    · simp only [false_iff]
      rintro ⟨-, -, hall, -⟩
      have ht : u.data.all (fun c => allowed_chars.contains c) = true :=
        List.all_eq_true.mpr (fun c hc => List.elem_iff.mpr (hall c hc))
      rw [ht] at h3
      exact absurd h3 (by decide)
    · simp only [false_iff]
      rintro ⟨-, -, -, hh⟩
      exact hh h4
    · simp only [true_iff]
      rw [not_or] at h2
      rcases hb : u.data.all (fun c => allowed_chars.contains c) with _ | _
      · exact absurd hb h3
      · refine ⟨by omega, by omega, ?_, h4⟩
        intro c hc
        exact List.elem_iff.mp (List.all_eq_true.mp hb c hc)
  · intro conn m hm
    unfold processMessageConn
    rw [hm]

/-- Witness for `validate_username_rule_and_join_unvalidated` at the
conforming name `"ok_name_1"`. -/
theorem validate_username_rule_and_join_unvalidated_witness :
    (validate_username "ok_name_1" = true ↔ usernameRule "ok_name_1") ∧
    processMessageConn ⟨"", true⟩ ⟨"j2", .join, "ok_name_1", "ok_name_1", "1.0", "c"⟩ =
      ⟨"ok_name_1", true⟩ :=
  ⟨validate_username_rule_and_join_unvalidated.1 "ok_name_1",
   validate_username_rule_and_join_unvalidated.2 ⟨"", true⟩
     ⟨"j2", .join, "ok_name_1", "ok_name_1", "1.0", "c"⟩ rfl⟩

/-! ## C8: framing round-trip -/

/-- C8: for every message whose checksum verifies, decoding the JSON payload
produced by `to_bytes` yields the same message, and the decoded message's
checksum verifies. -/
theorem from_bytes_to_bytes_roundtrip (m : ProtoMessage) (h : m.is_valid = true) :
    fromBytesPayload (toBytesPayload m) = some m ∧
    Option.all ProtoMessage.is_valid (fromBytesPayload (toBytesPayload m)) = true := by
  have key : fromBytesPayload (toBytesPayload m) = some m := by
    have e1 : fromBytesPayload (toBytesPayload m) =
        match msgTypeOfValue (msgTypeValue m.msg_type) with
        | some mt => some (protoPostInit ⟨m.msg_id, mt, m.sender, m.content,
            m.timestamp, m.checksum, m.priority, m.sequence_number⟩)
        | none => none := rfl
    rw [e1, msgTypeOfValue_msgTypeValue]
    show some (protoPostInit ⟨m.msg_id, m.msg_type, m.sender, m.content,
      m.timestamp, m.checksum, m.priority, m.sequence_number⟩) = some m
    rw [show (⟨m.msg_id, m.msg_type, m.sender, m.content, m.timestamp,
      m.checksum, m.priority, m.sequence_number⟩ : ProtoMessage) = m from rfl]
    rw [protoPostInit_of_valid m h]
  refine ⟨key, ?_⟩
  rw [key]
  simpa [Option.all] using h

/-- Witness for `from_bytes_to_bytes_roundtrip` at a concrete message whose
checksum is computed by `__post_init__`. -/
theorem from_bytes_to_bytes_roundtrip_witness :
    fromBytesPayload (toBytesPayload
        (protoPostInit ⟨"m1", .chat, "alice", "hi", "1234.5", "", 1, 0⟩)) =
      some (protoPostInit ⟨"m1", .chat, "alice", "hi", "1234.5", "", 1, 0⟩) ∧
    Option.all ProtoMessage.is_valid (fromBytesPayload (toBytesPayload
        (protoPostInit ⟨"m1", .chat, "alice", "hi", "1234.5", "", 1, 0⟩))) = true :=
  from_bytes_to_bytes_roundtrip
    (protoPostInit ⟨"m1", .chat, "alice", "hi", "1234.5", "", 1, 0⟩) (by decide)

/-! ## Congestion controller (`CongestionControl` in `tcp_chat_server.py`)

Python float arithmetic is embedded over `ℚ`; `max` and `abs` are embedded
as the Python builtins (first argument wins ties for `max`, which
coincides with `max` on a linear order). -/

/-- Congestion control states (`CongestionState` in the sources). -/
inductive CongestionState
  | slow_start
  | congestion_avoidance
  | fast_recovery
deriving DecidableEq, Repr

/-- Python `max(a, b)` on rationals. -/
def pymax (a b : ℚ) : ℚ := if b ≤ a then a else b

/-- Python `abs(x)` on rationals. -/
def pyabs (x : ℚ) : ℚ := if x < 0 then -x else x

/-- The `CongestionControl` state: congestion window, slow-start threshold,
Reno state, duplicate-ack counter, last acknowledged number, bounded RTT
sample window, and the Jacobson estimator state. -/
structure CongestionControl where
  cwnd : ℚ
  ssthresh : ℚ
  state : CongestionState
  duplicate_acks : Nat
  last_ack : Int
  rtt_samples : List ℚ
  srtt : ℚ
  rttvar : ℚ
  rto : ℚ
deriving DecidableEq, Repr

/-- Embedding of `CongestionControl.__init__`. -/
def ccInit : CongestionControl :=
  { cwnd := 1, ssthresh := 64, state := .slow_start, duplicate_acks := 0,
    last_ack := 0, rtt_samples := [], srtt := 0, rttvar := 0, rto := 3 }

/-- Embedding of `CongestionControl.update_rtt` (Jacobson's algorithm with
`alpha = 0.125`, `beta = 0.25`; `rto := max(1, srtt + 4*rttvar)`; sample
window capped at 100 by popping the front). -/
def update_rtt (c : CongestionControl) (rtt : ℚ) : CongestionControl :=
  let c1 :=
    if c.rtt_samples.isEmpty then
      { c with srtt := rtt, rttvar := rtt / 2 }
    else
      { c with rttvar := (1 - 1/4) * c.rttvar + (1/4) * pyabs (c.srtt - rtt),
               srtt := (1 - 1/8) * c.srtt + (1/8) * rtt }
  let c2 := { c1 with rto := pymax 1 (c1.srtt + 4 * c1.rttvar) }
  let c3 := { c2 with rtt_samples := c2.rtt_samples ++ [rtt] }
  if c3.rtt_samples.length > 100 then
    { c3 with rtt_samples := c3.rtt_samples.tail }
  else c3

/-- Embedding of `CongestionControl.on_ack_received`. -/
def on_ack_received (c0 : CongestionControl) (ack_num : Int) (rtt : ℚ) :
    CongestionControl :=
  let c := update_rtt c0 rtt
  if ack_num > c.last_ack then
    let c := { c with duplicate_acks := 0, last_ack := ack_num }
    match c.state with
    | .slow_start =>
        let c := { c with cwnd := c.cwnd + 1 }
        if c.cwnd ≥ c.ssthresh then { c with state := .congestion_avoidance } else c
    | .congestion_avoidance => { c with cwnd := c.cwnd + 1 / c.cwnd }
    | .fast_recovery => { c with cwnd := c.ssthresh, state := .congestion_avoidance }
  else if ack_num = c.last_ack then
    let c := { c with duplicate_acks := c.duplicate_acks + 1 }
    if c.duplicate_acks = 3 then
      let ss := pymax (c.cwnd / 2) 2
      { c with ssthresh := ss, cwnd := ss + 3, state := .fast_recovery }
    else if c.state = .fast_recovery then
      { c with cwnd := c.cwnd + 1 }
    else c
  else c

/-- Embedding of `CongestionControl.on_timeout`. -/
def on_timeout (c : CongestionControl) : CongestionControl :=
  { c with ssthresh := pymax (c.cwnd / 2) 2, cwnd := 1, state := .slow_start,
           duplicate_acks := 0, rto := c.rto * 2 }

/-- The RTT update never touches the congestion window. -/
@[simp] theorem update_rtt_cwnd (c : CongestionControl) (rtt : ℚ) :
    (update_rtt c rtt).cwnd = c.cwnd := by
  simp only [update_rtt]
  split <;> split <;> simp

/-- The RTT update never touches the slow-start threshold. -/
@[simp] theorem update_rtt_ssthresh (c : CongestionControl) (rtt : ℚ) :
    (update_rtt c rtt).ssthresh = c.ssthresh := by
  simp only [update_rtt]
  split <;> split <;> simp

/-- The RTT update never touches the Reno state. -/
@[simp] theorem update_rtt_state (c : CongestionControl) (rtt : ℚ) :
    (update_rtt c rtt).state = c.state := by
  simp only [update_rtt]
  split <;> split <;> simp

/-- The RTT update never touches the duplicate-ack counter. -/
@[simp] theorem update_rtt_duplicate_acks (c : CongestionControl) (rtt : ℚ) :
    (update_rtt c rtt).duplicate_acks = c.duplicate_acks := by
  simp only [update_rtt]
  split <;> split <;> simp

/-- The RTT update never touches the last-ack number. -/
@[simp] theorem update_rtt_last_ack (c : CongestionControl) (rtt : ℚ) :
    (update_rtt c rtt).last_ack = c.last_ack := by
  simp only [update_rtt]
  split <;> split <;> simp

/-- Characterization of the duplicate-ack branch of `on_ack_received`
(`ack_num == last_ack`). -/
theorem on_ack_dup (c : CongestionControl) (r : ℚ) :
    on_ack_received c c.last_ack r =
      (if c.duplicate_acks + 1 = 3 then
        { update_rtt c r with
            duplicate_acks := c.duplicate_acks + 1,
            ssthresh := pymax (c.cwnd / 2) 2,
            cwnd := pymax (c.cwnd / 2) 2 + 3,
            state := .fast_recovery }
      else if c.state = .fast_recovery then
        { update_rtt c r with
            duplicate_acks := c.duplicate_acks + 1,
            cwnd := c.cwnd + 1 }
      else
        { update_rtt c r with duplicate_acks := c.duplicate_acks + 1 }) := by
  simp only [on_ack_received]
  rw [if_neg (by simp), if_pos (by simp)]
  simp only [update_rtt_duplicate_acks, update_rtt_state, update_rtt_cwnd]

/-- Characterization of the new-ack branch of `on_ack_received`
(`ack_num > last_ack`). -/
theorem on_ack_new (c : CongestionControl) (a : Int) (r : ℚ) (h : c.last_ack < a) :
    on_ack_received c a r =
      (match c.state with
       | .slow_start =>
          if c.cwnd + 1 ≥ c.ssthresh then
            { update_rtt c r with
                duplicate_acks := 0,
                last_ack := a,
                cwnd := c.cwnd + 1,
                state := .congestion_avoidance }
          else
            { update_rtt c r with
                duplicate_acks := 0,
                last_ack := a,
                cwnd := c.cwnd + 1 }
       | .congestion_avoidance =>
          { update_rtt c r with
              duplicate_acks := 0,
              last_ack := a,
              cwnd := c.cwnd + 1 / c.cwnd }
       | .fast_recovery =>
          { update_rtt c r with
              duplicate_acks := 0,
              last_ack := a,
              cwnd := c.ssthresh,
              state := .congestion_avoidance }) := by
  simp only [on_ack_received]
  rw [if_pos (by simp [h])]
  rcases hs : c.state <;>
    simp only [update_rtt_state, update_rtt_cwnd, update_rtt_ssthresh, hs]

/-! ## C6: timeout handling -/

/-- C6: every timeout sets `ssthresh := max(cwnd/2, 2)`, resets `cwnd := 1`
and the dup-ack counter, doubles `rto`, and enters SLOW_START — in every
controller state. -/
theorem timeout_resets_controller (c : CongestionControl) :
    (on_timeout c).ssthresh = pymax (c.cwnd / 2) 2 ∧
    (on_timeout c).cwnd = 1 ∧
    (on_timeout c).duplicate_acks = 0 ∧
    (on_timeout c).rto = c.rto * 2 ∧
    (on_timeout c).state = .slow_start :=
  ⟨rfl, rfl, rfl, rfl, rfl⟩

/-! ## C4: three duplicate acks trigger fast retransmit -/

/-- C4: from a state outside FAST_RECOVERY with a fresh dup-ack streak,
the first two duplicate acks (same `ack_seq` as `last_ack`) do not enter
FAST_RECOVERY and leave `cwnd` unchanged; the third enters FAST_RECOVERY
with `ssthresh := max(cwnd/2, 2)` and `cwnd := ssthresh + 3`; and every
additional duplicate ack processed inside FAST_RECOVERY inflates `cwnd` by
exactly 1. -/
theorem fast_retransmit_on_third_dup_ack :
    (∀ (c : CongestionControl) (r1 r2 r3 : ℚ),
      c.state ≠ .fast_recovery → c.duplicate_acks = 0 →
      let c1 := on_ack_received c c.last_ack r1
      let c2 := on_ack_received c1 c1.last_ack r2
      let c3 := on_ack_received c2 c2.last_ack r3
      c1.state ≠ .fast_recovery ∧ c2.state ≠ .fast_recovery ∧
      c2.cwnd = c.cwnd ∧ c3.state = .fast_recovery ∧
      c3.ssthresh = pymax (c2.cwnd / 2) 2 ∧ c3.cwnd = c3.ssthresh + 3) ∧
    (∀ (d : CongestionControl) (r : ℚ),
      d.state = .fast_recovery → 3 ≤ d.duplicate_acks →
      (on_ack_received d d.last_ack r).cwnd = d.cwnd + 1 ∧
      (on_ack_received d d.last_ack r).state = .fast_recovery) := by
  constructor
  · intro c r1 r2 r3 hs hd
    simp only []
    set c1 := on_ack_received c c.last_ack r1 with hc1
    set c2 := on_ack_received c1 c1.last_ack r2 with hc2
    set c3 := on_ack_received c2 c2.last_ack r3 with hc3
    have e1 : c1 = { update_rtt c r1 with duplicate_acks := c.duplicate_acks + 1 } := by
      rw [hc1, on_ack_dup, if_neg (by omega), if_neg hs]
    have h1s : c1.state = c.state := by rw [e1]; simp
    have h1d : c1.duplicate_acks = 1 := by rw [e1]; simp [hd]
    have h1c : c1.cwnd = c.cwnd := by rw [e1]; simp
    have e2 : c2 = { update_rtt c1 r2 with duplicate_acks := c1.duplicate_acks + 1 } := by
      rw [hc2, on_ack_dup, if_neg (by omega), if_neg (by rw [h1s]; exact hs)]
    have h2s : c2.state = c.state := by rw [e2]; simp [h1s]
    have h2d : c2.duplicate_acks = 2 := by rw [e2]; simp [h1d]
    have h2c : c2.cwnd = c.cwnd := by rw [e2]; simp [h1c]
    have e3 : c3 = { update_rtt c2 r3 with
        duplicate_acks := c2.duplicate_acks + 1,
        ssthresh := pymax (c2.cwnd / 2) 2,
        cwnd := pymax (c2.cwnd / 2) 2 + 3,
        state := .fast_recovery } := by
      rw [hc3, on_ack_dup, if_pos (by omega)]
    refine ⟨by rw [h1s]; exact hs, by rw [h2s]; exact hs, h2c, ?_, ?_, ?_⟩
    · rw [e3]
    · rw [e3]
    · rw [e3]
  · intro d r hfr hd3
    rw [on_ack_dup, if_neg (by omega), if_pos hfr]
    exact ⟨by simp, by simp [hfr]⟩

/-- Witness for `fast_retransmit_on_third_dup_ack`: a fresh controller fed
three duplicate acks enters FAST_RECOVERY, and a fourth duplicate ack there
inflates the window by 1. -/
theorem fast_retransmit_on_third_dup_ack_witness :
    (let c1 := on_ack_received ccInit ccInit.last_ack 1
     let c2 := on_ack_received c1 c1.last_ack 1
     let c3 := on_ack_received c2 c2.last_ack 1
     c1.state ≠ .fast_recovery ∧ c2.state ≠ .fast_recovery ∧
     c2.cwnd = ccInit.cwnd ∧ c3.state = .fast_recovery ∧
     c3.ssthresh = pymax (c2.cwnd / 2) 2 ∧ c3.cwnd = c3.ssthresh + 3) ∧
    (let c1 := on_ack_received ccInit ccInit.last_ack 1
     let c2 := on_ack_received c1 c1.last_ack 1
     let c3 := on_ack_received c2 c2.last_ack 1
     (on_ack_received c3 c3.last_ack 1).cwnd = c3.cwnd + 1 ∧
     (on_ack_received c3 c3.last_ack 1).state = .fast_recovery) :=
  ⟨fast_retransmit_on_third_dup_ack.1 ccInit 1 1 1 (by decide) rfl,
   fast_retransmit_on_third_dup_ack.2 _ 1 (by decide) (by decide)⟩

/-! ## C5: slow-start growth -/

/-- Feeding a controller a run of strictly-new acks (`last_ack + 1` each
time), with the given RTT samples. -/
def feedNewAcks (c : CongestionControl) : List ℚ → CongestionControl
  | [] => c
  | r :: rs => feedNewAcks (on_ack_received c (c.last_ack + 1) r) rs

/-- C5: in SLOW_START every new ack grows `cwnd` by exactly 1, and the
controller moves to CONGESTION_AVOIDANCE exactly when `cwnd ≥ ssthresh`
after the increment; consequently k consecutive new acks that keep the
controller below the threshold grow `cwnd` by exactly k and leave it in
SLOW_START. -/
theorem slow_start_linear_growth :
    (∀ (c : CongestionControl) (a : Int) (r : ℚ),
      c.state = .slow_start → c.last_ack < a →
      (on_ack_received c a r).cwnd = c.cwnd + 1 ∧
      ((on_ack_received c a r).state = .congestion_avoidance ↔
        c.ssthresh ≤ c.cwnd + 1) ∧
      ((on_ack_received c a r).state = .slow_start ↔ c.cwnd + 1 < c.ssthresh)) ∧
    (∀ (c : CongestionControl) (rs : List ℚ),
      c.state = .slow_start → c.cwnd + rs.length < c.ssthresh →
      (feedNewAcks c rs).cwnd = c.cwnd + rs.length ∧
      (feedNewAcks c rs).state = .slow_start) := by
  have single : ∀ (c : CongestionControl) (a : Int) (r : ℚ),
      c.state = .slow_start → c.last_ack < a →
      (on_ack_received c a r).cwnd = c.cwnd + 1 ∧
      ((on_ack_received c a r).state = .congestion_avoidance ↔
        c.ssthresh ≤ c.cwnd + 1) ∧
      ((on_ack_received c a r).state = .slow_start ↔ c.cwnd + 1 < c.ssthresh) := by
    intro c a r hss hlt
    rw [on_ack_new c a r hlt, hss]
    by_cases hge : c.cwnd + 1 ≥ c.ssthresh
    · rw [if_pos hge]
      exact ⟨by simp, by simp [hge], by simp [not_lt.mpr hge]⟩
    · rw [if_neg hge]
      exact ⟨by simp, by simp [hss, hge], by simp [hss, lt_of_not_ge hge]⟩
  refine ⟨single, ?_⟩
  intro c rs
  induction rs generalizing c with
  | nil =>
    intro hss _
    refine ⟨by simp [feedNewAcks], ?_⟩
    simpa [feedNewAcks] using hss
  | cons r rs ih =>
    intro hss hlt
    have hlen : ((r :: rs).length : ℚ) = (rs.length : ℚ) + 1 := by
      push_cast [List.length_cons]
      ring
    have hstep1 : c.cwnd + 1 < c.ssthresh := by
      rw [hlen] at hlt
      have : (0 : ℚ) ≤ (rs.length : ℚ) := by positivity
      linarith
    have hone := single c (c.last_ack + 1) r hss (by omega)
    have hs1 : (on_ack_received c (c.last_ack + 1) r).state = .slow_start :=
      hone.2.2.mpr hstep1
    have hc1 : (on_ack_received c (c.last_ack + 1) r).cwnd = c.cwnd + 1 := hone.1
    have hss1 : (on_ack_received c (c.last_ack + 1) r).ssthresh = c.ssthresh := by
      rw [on_ack_new c _ r (by omega), hss, if_neg (by exact not_le.mpr hstep1)]
      simp
    have hrec := ih (on_ack_received c (c.last_ack + 1) r) hs1
      (by rw [hc1, hss1]; rw [hlen] at hlt; linarith)
    refine ⟨?_, hrec.2⟩
    rw [show feedNewAcks c (r :: rs) =
      feedNewAcks (on_ack_received c (c.last_ack + 1) r) rs from rfl]
    rw [hrec.1, hc1, hlen]
    ring

/-- Witness for `slow_start_linear_growth`: a fresh controller, one new ack,
and a two-ack run. -/
theorem slow_start_linear_growth_witness :
    ((on_ack_received ccInit 1 1).cwnd = ccInit.cwnd + 1 ∧
     ((on_ack_received ccInit 1 1).state = .congestion_avoidance ↔
       ccInit.ssthresh ≤ ccInit.cwnd + 1) ∧
     ((on_ack_received ccInit 1 1).state = .slow_start ↔
       ccInit.cwnd + 1 < ccInit.ssthresh)) ∧
    ((feedNewAcks ccInit [1, 1]).cwnd = ccInit.cwnd + ([1, 1] : List ℚ).length ∧
     (feedNewAcks ccInit [1, 1]).state = .slow_start) :=
  ⟨slow_start_linear_growth.1 ccInit 1 1 rfl (by decide),
   slow_start_linear_growth.2 ccInit [1, 1] rfl (by norm_num [ccInit])⟩

/-! ## C9: controller invariants over arbitrary event runs -/

/-- Characterization of `on_ack_received` for a stale ack
(`ack_num < last_ack`): only the RTT update happens. -/
theorem on_ack_old (c : CongestionControl) (a : Int) (r : ℚ)
    (h : a < c.last_ack) : on_ack_received c a r = update_rtt c r := by
  simp only [on_ack_received]
  rw [if_neg (by simp only [update_rtt_last_ack]; omega),
    if_neg (by simp only [update_rtt_last_ack]; omega)]

/-- The first argument is a lower bound of `pymax`. -/
theorem pymax_ge_left (a b : ℚ) : a ≤ pymax a b := by
  unfold pymax
  split <;> linarith

/-- The second argument is a lower bound of `pymax`. -/
theorem pymax_ge_right (a b : ℚ) : b ≤ pymax a b := by
  unfold pymax
  split <;> linarith

/-- The RTT update's new sample window: append the sample, then pop the
front when the cap of 100 is exceeded. -/
theorem update_rtt_rtt_samples (c : CongestionControl) (r : ℚ) :
    (update_rtt c r).rtt_samples =
      if (c.rtt_samples ++ [r]).length > 100 then (c.rtt_samples ++ [r]).tail
      else c.rtt_samples ++ [r] := by
  simp only [update_rtt]
  split <;> split <;> simp_all

/-- The RTT update always leaves `rto ≥ 1`. -/
theorem update_rtt_rto_ge_one (c : CongestionControl) (r : ℚ) :
    1 ≤ (update_rtt c r).rto := by
  simp only [update_rtt]
  split <;> split <;> exact pymax_ge_left _ _

/-- Every branch of `on_ack_received` keeps the sample window produced by
`update_rtt`. -/
theorem on_ack_received_rtt_samples (c : CongestionControl) (a : Int) (r : ℚ) :
    (on_ack_received c a r).rtt_samples = (update_rtt c r).rtt_samples := by
  rcases lt_trichotomy c.last_ack a with hlt | heq | hgt
  · rw [on_ack_new c a r hlt]
    rcases hs : c.state <;> simp only [hs] <;> (try split_ifs) <;> simp
  · rw [← heq, on_ack_dup]
    split_ifs <;> simp
  · rw [on_ack_old c a r hgt]

/-- Every branch of `on_ack_received` keeps the `rto` produced by
`update_rtt`. -/
theorem on_ack_received_rto (c : CongestionControl) (a : Int) (r : ℚ) :
    (on_ack_received c a r).rto = (update_rtt c r).rto := by
  rcases lt_trichotomy c.last_ack a with hlt | heq | hgt
  · rw [on_ack_new c a r hlt]
    rcases hs : c.state <;> simp only [hs] <;> (try split_ifs) <;> simp
  · rw [← heq, on_ack_dup]
    split_ifs <;> simp
  · rw [on_ack_old c a r hgt]

/-- An event fed to the controller: an application-level ack (with its
measured RTT) or a retransmission timeout. -/
inductive CCEvent
  | ackEvt (ack_num : Int) (rtt : ℚ)
  | timeoutEvt

/-- One controller transition. -/
def ccStep (c : CongestionControl) : CCEvent → CongestionControl
  | .ackEvt a r => on_ack_received c a r
  | .timeoutEvt => on_timeout c

/-- Run the controller from `__init__` over an event list. -/
def ccRun (evs : List CCEvent) : CongestionControl := evs.foldl ccStep ccInit

/-- The RTT samples an event list carries, in arrival order. -/
def evtRtts (evs : List CCEvent) : List ℚ :=
  evs.filterMap (fun e => match e with | .ackEvt _ r => some r | .timeoutEvt => none)

/-- The controller data invariant: window at least 1, threshold at least 2,
timeout at least 1 second, sample window within the cap. -/
def ccInv (c : CongestionControl) : Prop :=
  1 ≤ c.cwnd ∧ 2 ≤ c.ssthresh ∧ 1 ≤ c.rto ∧ c.rtt_samples.length ≤ 100

/-- The sample-window relation: the stored samples are a suffix of all
samples fed so far, of size `min total 100` — the cap evicts the oldest
first. -/
def sampleWindow (c : CongestionControl) (rs : List ℚ) : Prop :=
  c.rtt_samples <:+ rs ∧ c.rtt_samples.length = min rs.length 100

/-- Suffixes are stable under appending the same element on the right. -/
theorem isSuffix_append_single {α : Type} {l1 l2 : List α} (a : α)
    (h : l1 <:+ l2) : l1 ++ [a] <:+ l2 ++ [a] := by
  obtain ⟨t, ht⟩ := h
  exact ⟨t, by rw [← List.append_assoc, ht]⟩

/-- The RTT update preserves the sample-window relation, recording one more
sample. -/
theorem sampleWindow_update_rtt (c : CongestionControl) (r : ℚ) (rs : List ℚ)
    (hw : sampleWindow c rs) : sampleWindow (update_rtt c r) (rs ++ [r]) := by
  obtain ⟨hsuf, hlen⟩ := hw
  have hsuf2 : c.rtt_samples ++ [r] <:+ rs ++ [r] := isSuffix_append_single r hsuf
  constructor
  · rw [update_rtt_rtt_samples]
    split_ifs with h100
    · exact (List.tail_suffix _).trans hsuf2
    · exact hsuf2
  · rw [update_rtt_rtt_samples]
    split_ifs with h100 <;>
      simp only [List.length_tail, List.length_append, List.length_singleton] at * <;>
      omega

/-- One controller step preserves the data invariant and extends the sample
window by the step's RTT samples. -/
theorem ccStep_inv (c : CongestionControl) (e : CCEvent) (rs : List ℚ)
    (h : ccInv c) (hw : sampleWindow c rs) :
    ccInv (ccStep c e) ∧ sampleWindow (ccStep c e) (rs ++ evtRtts [e]) := by
  obtain ⟨hc, hss, hrto, hlen⟩ := h
  cases e with
  | timeoutEvt =>
    refine ⟨⟨by simp [ccStep, on_timeout], ?_, ?_, by simp [ccStep, on_timeout, hlen]⟩, ?_⟩
    · simpa [ccStep, on_timeout] using pymax_ge_right (c.cwnd / 2) 2
    · simp only [ccStep, on_timeout]
      linarith
    · simpa [ccStep, on_timeout, evtRtts] using hw
  | ackEvt a r =>
    have hstep : ccStep c (.ackEvt a r) = on_ack_received c a r := rfl
    have hwin := sampleWindow_update_rtt c r rs hw
    have hsw : sampleWindow (ccStep c (.ackEvt a r)) (rs ++ [r]) := by
      rw [hstep]
      constructor
      · rw [on_ack_received_rtt_samples]
        exact hwin.1
      · rw [on_ack_received_rtt_samples]
        exact hwin.2
    have hrto2 : 1 ≤ (ccStep c (.ackEvt a r)).rto := by
      rw [hstep, on_ack_received_rto]
      exact update_rtt_rto_ge_one c r
    have hlen2 : (ccStep c (.ackEvt a r)).rtt_samples.length ≤ 100 := by
      have h2 := hsw.2
      omega
    have hmax2 : (2 : ℚ) ≤ pymax (c.cwnd / 2) 2 := pymax_ge_right _ _
    have hcwnd2 : 1 ≤ (on_ack_received c a r).cwnd := by
      rcases lt_trichotomy c.last_ack a with hlt | heq | hgt
      · rw [on_ack_new c a r hlt]
        rcases hs : c.state <;> simp only [hs]
        · split_ifs <;> (show (1 : ℚ) ≤ c.cwnd + 1; linarith)
        · show (1 : ℚ) ≤ c.cwnd + 1 / c.cwnd
          have hpos : 0 < 1 / c.cwnd := by positivity
          linarith
        · show (1 : ℚ) ≤ c.ssthresh
          linarith
      · rw [← heq, on_ack_dup]
        split_ifs
        · show (1 : ℚ) ≤ pymax (c.cwnd / 2) 2 + 3
          linarith
        · show (1 : ℚ) ≤ c.cwnd + 1
          linarith
        · show (1 : ℚ) ≤ (update_rtt c r).cwnd
          rw [update_rtt_cwnd]
          exact hc
      · rw [on_ack_old c a r hgt, update_rtt_cwnd]
        exact hc
    have hssthresh2 : 2 ≤ (on_ack_received c a r).ssthresh := by
      rcases lt_trichotomy c.last_ack a with hlt | heq | hgt
      · rw [on_ack_new c a r hlt]
        rcases hs : c.state <;> simp only [hs]
        · split_ifs <;>
            (show (2 : ℚ) ≤ (update_rtt c r).ssthresh; rw [update_rtt_ssthresh]; linarith)
        · show (2 : ℚ) ≤ (update_rtt c r).ssthresh
          rw [update_rtt_ssthresh]
          linarith
        · show (2 : ℚ) ≤ (update_rtt c r).ssthresh
          rw [update_rtt_ssthresh]
          linarith
      · rw [← heq, on_ack_dup]
        split_ifs
        · show (2 : ℚ) ≤ pymax (c.cwnd / 2) 2
          linarith
        · show (2 : ℚ) ≤ (update_rtt c r).ssthresh
          rw [update_rtt_ssthresh]
          linarith
        · show (2 : ℚ) ≤ (update_rtt c r).ssthresh
          rw [update_rtt_ssthresh]
          linarith
      · rw [on_ack_old c a r hgt, update_rtt_ssthresh]
        exact hss
    refine ⟨⟨by rw [hstep]; exact hcwnd2, by rw [hstep]; exact hssthresh2, hrto2, hlen2⟩, ?_⟩
    simpa [evtRtts] using hsw

/-- C9: in every controller state reachable from `__init__` by any sequence
of ack and timeout events, `cwnd ≥ 1`, `ssthresh ≥ 2`, `rto ≥ 1`, the Reno
state is one of the three states, and the RTT sample window is the
`min(total, 100)`-sized suffix of all samples fed — the cap evicts the
oldest first. -/
theorem controller_reachable_invariant (evs : List CCEvent) :
    ccInv (ccRun evs) ∧
    ((ccRun evs).state = .slow_start ∨ (ccRun evs).state = .congestion_avoidance ∨
      (ccRun evs).state = .fast_recovery) ∧
    (ccRun evs).rtt_samples <:+ evtRtts evs ∧
    (ccRun evs).rtt_samples.length = min (evtRtts evs).length 100 := by
  have aux : ∀ (l : List CCEvent) (c : CongestionControl) (rs : List ℚ),
      ccInv c → sampleWindow c rs →
      ccInv (l.foldl ccStep c) ∧ sampleWindow (l.foldl ccStep c) (rs ++ evtRtts l) := by
    intro l
    induction l with
    | nil =>
      intro c rs h hw
      constructor
      · simpa using h
      · simpa [evtRtts] using hw
    | cons e l ih =>
      intro c rs h hw
      have hstep := ccStep_inv c e rs h hw
      have hrec := ih (ccStep c e) (rs ++ evtRtts [e]) hstep.1 hstep.2
      have harr : rs ++ evtRtts (e :: l) = (rs ++ evtRtts [e]) ++ evtRtts l := by
        cases e <;> simp [evtRtts]
      rw [List.foldl_cons, harr]
      exact hrec
  have h0 : ccInv ccInit := by
    refine ⟨by norm_num [ccInit], by norm_num [ccInit], by norm_num [ccInit], by simp [ccInit]⟩
  have hw0 : sampleWindow ccInit [] := by
    constructor
    · simp [ccInit]
    · simp [ccInit]
  have hmain := aux evs ccInit [] h0 hw0
  refine ⟨hmain.1, ?_, ?_, ?_⟩
  · rcases hst : (ccRun evs).state <;> simp
  · simpa [ccRun] using hmain.2.1
  · simpa [ccRun] using hmain.2.2

/-! ## C10: the server's own ack counter starves the dup-ack logic

`ClientConnection.handle_ack` calls
`on_ack_received(self.expected_ack, rtt)` and then increments
`self.expected_ack`; timeouts in `_sender_worker` call `on_timeout`.  These
are the only controller mutations on a server connection. -/

/-- The controller together with the connection's `expected_ack` counter
(`ClientConnection.expected_ack`, initialized to 0). -/
structure AckConnState where
  cc : CongestionControl
  expected_ack : Int
deriving DecidableEq, Repr

/-- A fresh connection's controller-facing state. -/
def connInit : AckConnState := ⟨ccInit, 0⟩

/-- A controller-visible event on a server connection: a matched ACK
processed by `handle_ack` (with its measured RTT), or a retransmission
timeout from `_sender_worker`. -/
inductive ConnEvent
  | matchedAck (rtt : ℚ)
  | timeoutEvt

/-- One controller-visible step of `ClientConnection`: `handle_ack` feeds
`expected_ack` to the controller and increments it; a timeout feeds
`on_timeout`. -/
def connStep (s : AckConnState) : ConnEvent → AckConnState
  | .matchedAck rtt =>
      ⟨on_ack_received s.cc s.expected_ack rtt, s.expected_ack + 1⟩
  | .timeoutEvt => ⟨on_timeout s.cc, s.expected_ack⟩

/-- Run a fresh connection over a list of controller-visible events. -/
def connRun (evs : List ConnEvent) : AckConnState := evs.foldl connStep connInit

/-- The inductive invariant tying `expected_ack` to the controller's
`last_ack`. -/
def connInv (s : AckConnState) : Prop :=
  s.cc.duplicate_acks ≤ 1 ∧ s.cc.state ≠ .fast_recovery ∧
  ((s.expected_ack = 0 ∧ s.cc.last_ack = 0 ∧ s.cc.duplicate_acks = 0) ∨
   (1 ≤ s.expected_ack ∧ s.cc.last_ack = s.expected_ack - 1))

/-- One connection step preserves the invariant. -/
theorem connStep_inv (s : AckConnState) (e : ConnEvent) (h : connInv s) :
    connInv (connStep s e) := by
  obtain ⟨hd, hs, hcase⟩ := h
  cases e with
  | timeoutEvt =>
    refine ⟨by simp [connStep, on_timeout], by simp [connStep, on_timeout], ?_⟩
    rcases hcase with ⟨h1, h2, _⟩ | ⟨h1, h2⟩
    · exact Or.inl ⟨h1, by simpa [connStep, on_timeout] using h2, by simp [connStep, on_timeout]⟩
    · exact Or.inr ⟨h1, by simpa [connStep, on_timeout] using h2⟩
  | matchedAck r =>
    rcases hcase with ⟨h1, h2, h3⟩ | ⟨h1, h2⟩
    · have harg : s.expected_ack = s.cc.last_ack := by omega
      have e1 : on_ack_received s.cc s.expected_ack r =
          { update_rtt s.cc r with duplicate_acks := s.cc.duplicate_acks + 1 } := by
        rw [harg, on_ack_dup, if_neg (by omega), if_neg hs]
      refine ⟨?_, ?_, Or.inr ⟨by simp [connStep]; omega, ?_⟩⟩
      · show (on_ack_received s.cc s.expected_ack r).duplicate_acks ≤ 1
        rw [e1]
        simp [h3]
      · show (on_ack_received s.cc s.expected_ack r).state ≠ .fast_recovery
        rw [e1]
        simpa using hs
      · show (on_ack_received s.cc s.expected_ack r).last_ack = s.expected_ack + 1 - 1
        rw [e1]
        simp
        omega
    · have hlt : s.cc.last_ack < s.expected_ack := by omega
      have e1 := on_ack_new s.cc s.expected_ack r hlt
      refine ⟨?_, ?_, Or.inr ⟨by simp [connStep]; omega, ?_⟩⟩
      · show (on_ack_received s.cc s.expected_ack r).duplicate_acks ≤ 1
        rw [e1]
        rcases hst : s.cc.state <;> simp only [hst] <;> (try split_ifs) <;> simp
      · show (on_ack_received s.cc s.expected_ack r).state ≠ .fast_recovery
        rw [e1]
        rcases hst : s.cc.state <;> simp only [hst]
        · split_ifs <;> simp [hst]
        · simpa using hs
        · simp
      · show (on_ack_received s.cc s.expected_ack r).last_ack = s.expected_ack + 1 - 1
        rw [e1]
        rcases hst : s.cc.state <;> simp only [hst] <;> (try split_ifs) <;> simp

/-- C10: on a server connection, for every sequence of handled matched ACKs
and timeouts starting from a fresh connection, the controller's
duplicate-ack counter never exceeds 1 and the controller is never in
FAST_RECOVERY — the fast-retransmit branch is unreachable in server
operation. -/
theorem server_connection_never_fast_recovery (evs : List ConnEvent) :
    (connRun evs).cc.duplicate_acks ≤ 1 ∧
    (connRun evs).cc.state ≠ .fast_recovery := by
  have aux : ∀ (l : List ConnEvent) (s : AckConnState), connInv s →
      connInv (l.foldl connStep s) := by
    intro l
    induction l with
    | nil => intro s h; simpa using h
    | cons e l ih =>
      intro s h
      rw [List.foldl_cons]
      exact ih (connStep s e) (connStep_inv s e h)
  have h0 : connInv connInit := by
    refine ⟨by simp [connInit, ccInit], by simp [connInit, ccInit], ?_⟩
    exact Or.inl ⟨rfl, rfl, rfl⟩
  have := aux evs connInit h0
  exact ⟨this.1, this.2.1⟩

/-! ## Send pipeline: pending messages, retransmission scan, `handle_ack`

`ClientConnection.pending_messages` maps `msg_id` to `(message, timestamp)`.
The source stores no transmission counter; `transmit_count` below is ghost
instrumentation counting the `_send_raw` calls made for the entry (1 on the
initial send, +1 per retransmission), added so that claims phrased in terms
of retransmission counts can be stated.  Wall-clock reads (`time.time()`)
are passed in as explicit event times. -/

/-- One pending entry: the stored `(message, timestamp)` pair plus the ghost
transmission counter. -/
structure PendingEntry where
  msg : SrvMessage
  send_time : ℚ
  transmit_count : Nat
deriving DecidableEq, Repr

/-- The reliability state of one `ClientConnection`: controller, ack
counter, and the pending map (as an ordered key/value list, Python dicts
preserving insertion order). -/
structure SenderState where
  cc : CongestionControl
  expected_ack : Int
  pending : List (String × PendingEntry)
deriving DecidableEq, Repr

/-- A fresh connection's reliability state. -/
def senderInit : SenderState := ⟨ccInit, 0, []⟩

/-- Dict lookup on the pending map. -/
def lookupEntry : List (String × PendingEntry) → String → Option PendingEntry
  | [], _ => none
  | (k, v) :: rest, key => if k = key then some v else lookupEntry rest key

/-- Dict `del` on the pending map. -/
def removeEntry : List (String × PendingEntry) → String → List (String × PendingEntry)
  | [], _ => []
  | (k, v) :: rest, key =>
      if k = key then removeEntry rest key else (k, v) :: removeEntry rest key

/-- Dict assignment on the pending map: overwrite in place, or append. -/
def setEntry (p : List (String × PendingEntry)) (id : String) (e : PendingEntry) :
    List (String × PendingEntry) :=
  match lookupEntry p id with
  | some _ => p.map (fun kv => if kv.1 = id then (id, e) else kv)
  | none => p ++ [(id, e)]

/-- One retransmission of the entry with the given id inside a tick:
`_send_raw(message)` (ghost count +1) and
`pending_messages[msg_id] = (message, current_time)`. -/
def retransmitOne (p : List (String × PendingEntry)) (id : String) (t : ℚ) :
    List (String × PendingEntry) :=
  p.map (fun kv =>
    if kv.1 = id then
      (kv.1, { kv.2 with send_time := t, transmit_count := kv.2.transmit_count + 1 })
    else kv)

/-- The retransmission scan at the top of `_sender_worker`'s loop at wall
time `t`: collect every entry with `t − send_time > rto` (the `rto` read at
scan start), then for each one resend it, restamp its send time, and notify
the controller with `on_timeout` (which doubles `rto`).  No counter is
consulted and no entry is removed. -/
def tickRetransmit (s : SenderState) (t : ℚ) : SenderState :=
  (s.pending.filter (fun kv => t - kv.2.send_time > s.cc.rto)).foldl
    (fun st kv =>
      { st with pending := retransmitOne st.pending kv.1 t, cc := on_timeout st.cc })
    s

/-- Admission of one queued non-ACK message at time `t` (the send loop at
the bottom of `_sender_worker`:
`pending_messages[message.msg_id] = (message, current_time)`; ghost count 1
for the initial transmission). -/
def sendNew (s : SenderState) (id : String) (m : SrvMessage) (t : ℚ) : SenderState :=
  { s with pending := setEntry s.pending id ⟨m, t, 1⟩ }

/-- Embedding of `ClientConnection.handle_ack` for an ACK whose `ack_for`
field is `id`, processed at wall time `t`: if the id is pending, compute
`rtt := t − send_time`, call `on_ack_received(expected_ack, rtt)`,
increment `expected_ack`, and delete the entry; otherwise do nothing. -/
def handle_ack (s : SenderState) (id : String) (t : ℚ) : SenderState :=
  match lookupEntry s.pending id with
  | some e =>
      { cc := on_ack_received s.cc s.expected_ack (t - e.send_time),
        expected_ack := s.expected_ack + 1,
        pending := removeEntry s.pending id }
  | none => s

/-- A timed event on the send pipeline. -/
inductive SendEvent
  | sendEvt (id : String) (m : SrvMessage) (t : ℚ)
  | tickEvt (t : ℚ)
  | ackEvt (id : String) (t : ℚ)

/-- One send-pipeline step. -/
def senderStep (s : SenderState) : SendEvent → SenderState
  | .sendEvt id m t => sendNew s id m t
  | .tickEvt t => tickRetransmit s t
  | .ackEvt id t => handle_ack s id t

/-- Run the send pipeline of a fresh connection over a timed event list. -/
def senderRun (evs : List SendEvent) : SenderState :=
  evs.foldl senderStep senderInit

/-- Every branch of `on_ack_received` keeps the `srtt` produced by
`update_rtt`. -/
theorem on_ack_received_srtt (c : CongestionControl) (a : Int) (r : ℚ) :
    (on_ack_received c a r).srtt = (update_rtt c r).srtt := by
  rcases lt_trichotomy c.last_ack a with hlt | heq | hgt
  · rw [on_ack_new c a r hlt]
    rcases hs : c.state <;> simp only [hs] <;> (try split_ifs) <;> simp
  · rw [← heq, on_ack_dup]
    split_ifs <;> simp
  · rw [on_ack_old c a r hgt]

/-- Every branch of `on_ack_received` keeps the `rttvar` produced by
`update_rtt`. -/
theorem on_ack_received_rttvar (c : CongestionControl) (a : Int) (r : ℚ) :
    (on_ack_received c a r).rttvar = (update_rtt c r).rttvar := by
  rcases lt_trichotomy c.last_ack a with hlt | heq | hgt
  · rw [on_ack_new c a r hlt]
    rcases hs : c.state <;> simp only [hs] <;> (try split_ifs) <;> simp
  · rw [← heq, on_ack_dup]
    split_ifs <;> simp
  · rw [on_ack_old c a r hgt]

/-- The Jacobson `srtt` recurrence, as `update_rtt` computes it. -/
theorem update_rtt_srtt (c : CongestionControl) (r : ℚ) :
    (update_rtt c r).srtt =
      if c.rtt_samples = [] then r else (1 - 1/8) * c.srtt + (1/8) * r := by
  simp only [update_rtt]
  split <;> split <;> simp_all [List.isEmpty_iff]

/-- The Jacobson `rttvar` recurrence, as `update_rtt` computes it. -/
theorem update_rtt_rttvar (c : CongestionControl) (r : ℚ) :
    (update_rtt c r).rttvar =
      if c.rtt_samples = [] then r / 2
      else (1 - 1/4) * c.rttvar + (1/4) * pyabs (c.srtt - r) := by
  simp only [update_rtt]
  split <;> split <;> simp_all [List.isEmpty_iff]

/-! ## C2: Karn's rule -/

/-- C2 counterexample: send `"m1"` at t=0, retransmit at the t=4 tick
(ghost transmit count 2), then process its ACK at t=5.  The estimator state
changes from `srtt = 0, rttvar = 0` to `srtt = 1, rttvar = 1/2`: the RTT
sample measured from the retransmitted message is fed to the estimator. -/
theorem karn_rule_violated :
    ((lookupEntry (senderRun
        [.sendEvt "m1" ⟨"m1", .chat, "server", "hi", "1.0", "c"⟩ 0,
         .tickEvt 4]).pending "m1").map (fun e => e.transmit_count) = some 2) ∧
    (senderRun
        [.sendEvt "m1" ⟨"m1", .chat, "server", "hi", "1.0", "c"⟩ 0,
         .tickEvt 4]).cc.srtt = 0 ∧
    (senderRun
        [.sendEvt "m1" ⟨"m1", .chat, "server", "hi", "1.0", "c"⟩ 0,
         .tickEvt 4]).cc.rttvar = 0 ∧
    (senderRun
        [.sendEvt "m1" ⟨"m1", .chat, "server", "hi", "1.0", "c"⟩ 0,
         .tickEvt 4, .ackEvt "m1" 5]).cc.srtt = 1 ∧
    (senderRun
        [.sendEvt "m1" ⟨"m1", .chat, "server", "hi", "1.0", "c"⟩ 0,
         .tickEvt 4, .ackEvt "m1" 5]).cc.rttvar = 1/2 := by
  norm_num [senderRun, senderStep, sendNew, setEntry, lookupEntry, tickRetransmit,
    retransmitOne, handle_ack, on_ack_received, update_rtt, on_timeout, pymax, pyabs,
    senderInit, ccInit, List.filter]
  exact ⟨rfl, rfl⟩

/-- C2 amended: `handle_ack` feeds every matched ACK's RTT sample — measured
from the entry's stored send time, which each retransmission resets — into
the Jacobson estimator, with no exemption for retransmitted messages (the
source keeps no transmission counter and Karn's rule is absent):
`srtt`/`rttvar` always follow the update recurrence. -/
theorem ack_feeds_rtt_unconditionally (s : SenderState) (id : String) (t : ℚ)
    (e : PendingEntry) (h : lookupEntry s.pending id = some e) :
    (handle_ack s id t).cc.srtt =
      (if s.cc.rtt_samples = [] then t - e.send_time
       else (1 - 1/8) * s.cc.srtt + (1/8) * (t - e.send_time)) ∧
    (handle_ack s id t).cc.rttvar =
      (if s.cc.rtt_samples = [] then (t - e.send_time) / 2
       else (1 - 1/4) * s.cc.rttvar + (1/4) * pyabs (s.cc.srtt - (t - e.send_time))) := by
  unfold handle_ack
  rw [h]
  constructor
  · show (on_ack_received s.cc s.expected_ack (t - e.send_time)).srtt = _
    rw [on_ack_received_srtt, update_rtt_srtt]
  · show (on_ack_received s.cc s.expected_ack (t - e.send_time)).rttvar = _
    rw [on_ack_received_rttvar, update_rtt_rttvar]

/-- Witness for `ack_feeds_rtt_unconditionally` at the retransmitted entry
of the counterexample run (ghost count 2). -/
theorem ack_feeds_rtt_unconditionally_witness :
    (handle_ack (senderRun
        [.sendEvt "m1" ⟨"m1", .chat, "server", "hi", "1.0", "c"⟩ 0,
         .tickEvt 4]) "m1" 5).cc.srtt =
      (if (senderRun
        [.sendEvt "m1" ⟨"m1", .chat, "server", "hi", "1.0", "c"⟩ 0,
         .tickEvt 4]).cc.rtt_samples = [] then
        5 - (⟨⟨"m1", .chat, "server", "hi", "1.0", "c"⟩, 4, 2⟩ : PendingEntry).send_time
       else (1 - 1/8) * (senderRun
        [.sendEvt "m1" ⟨"m1", .chat, "server", "hi", "1.0", "c"⟩ 0,
         .tickEvt 4]).cc.srtt + (1/8) *
          (5 - (⟨⟨"m1", .chat, "server", "hi", "1.0", "c"⟩, 4, 2⟩ : PendingEntry).send_time)) ∧
    (handle_ack (senderRun
        [.sendEvt "m1" ⟨"m1", .chat, "server", "hi", "1.0", "c"⟩ 0,
         .tickEvt 4]) "m1" 5).cc.rttvar =
      (if (senderRun
        [.sendEvt "m1" ⟨"m1", .chat, "server", "hi", "1.0", "c"⟩ 0,
         .tickEvt 4]).cc.rtt_samples = [] then
        (5 - (⟨⟨"m1", .chat, "server", "hi", "1.0", "c"⟩, 4, 2⟩ : PendingEntry).send_time) / 2
       else (1 - 1/4) * (senderRun
        [.sendEvt "m1" ⟨"m1", .chat, "server", "hi", "1.0", "c"⟩ 0,
         .tickEvt 4]).cc.rttvar + (1/4) * pyabs ((senderRun
        [.sendEvt "m1" ⟨"m1", .chat, "server", "hi", "1.0", "c"⟩ 0,
         .tickEvt 4]).cc.srtt -
          (5 - (⟨⟨"m1", .chat, "server", "hi", "1.0", "c"⟩, 4, 2⟩ : PendingEntry).send_time))) :=
  ack_feeds_rtt_unconditionally
    (senderRun [.sendEvt "m1" ⟨"m1", .chat, "server", "hi", "1.0", "c"⟩ 0, .tickEvt 4])
    "m1" 5 ⟨⟨"m1", .chat, "server", "hi", "1.0", "c"⟩, 4, 2⟩
    (by norm_num [senderRun, senderStep, sendNew, setEntry, lookupEntry, tickRetransmit,
      retransmitOne, on_timeout, pymax, senderInit, ccInit, List.filter])

/-! ## C3: retransmission cap -/

/-- `MAX_RETRANSMISSIONS` from `chat_protocol.py` (never consulted by the
server's sender loop). -/
def MAX_RETRANSMISSIONS : Nat := 3

/-- C3 counterexample: send `"m1"` at t=0 and let the retransmission timer
fire at t=4, 11, 24 and 49 (each firing doubles `rto`).  The message
reaches ghost transmit count 5 — more than `MAX_RETRANSMISSIONS + 1 = 4`
transmissions — and its pending entry is still present, not abandoned. -/
theorem retransmission_cap_violated :
    ((lookupEntry (senderRun
        [.sendEvt "m1" ⟨"m1", .chat, "server", "hi", "1.0", "c"⟩ 0,
         .tickEvt 4, .tickEvt 11, .tickEvt 24, .tickEvt 49]).pending "m1").map
        (fun e => e.transmit_count) = some 5) ∧
    MAX_RETRANSMISSIONS + 1 < 5 := by
  norm_num [senderRun, senderStep, sendNew, setEntry, lookupEntry, tickRetransmit,
    retransmitOne, on_timeout, pymax, senderInit, ccInit, List.filter,
    MAX_RETRANSMISSIONS]

/-- The per-retransmission bump of a pending entry: restamp `send_time`,
ghost count +1. -/
def bumpEntry (t : ℚ) (kv : String × PendingEntry) : String × PendingEntry :=
  (kv.1, { kv.2 with send_time := t, transmit_count := kv.2.transmit_count + 1 })

/-- The pending component of the retransmission scan is the fold of
`retransmitOne` over the overdue entries. -/
theorem tickRetransmit_pending (s : SenderState) (t : ℚ) :
    (tickRetransmit s t).pending =
      (s.pending.filter (fun kv => t - kv.2.send_time > s.cc.rto)).foldl
        (fun q kv => retransmitOne q kv.1 t) s.pending := by
  have aux : ∀ (l : List (String × PendingEntry)) (st : SenderState),
      (l.foldl (fun st kv =>
        { st with pending := retransmitOne st.pending kv.1 t, cc := on_timeout st.cc }) st).pending =
      l.foldl (fun q kv => retransmitOne q kv.1 t) st.pending := by
    intro l
    induction l with
    | nil => intro st; rfl
    | cons o l ih =>
      intro st
      rw [List.foldl_cons, List.foldl_cons]
      exact ih _
  exact aux _ s

/-- A fold of `retransmitOne` acts entry-wise as a map. -/
theorem foldl_retransmit_eq_map (t : ℚ) (ov : List (String × PendingEntry)) :
    ∀ Q, ov.foldl (fun q kv => retransmitOne q kv.1 t) Q =
      Q.map (fun kv0 =>
        ov.foldl (fun x kvo => if x.1 = kvo.1 then bumpEntry t x else x) kv0) := by
  induction ov with
  | nil =>
    intro Q
    simp
  | cons o ov ih =>
    intro Q
    rw [List.foldl_cons, ih (retransmitOne Q o.1 t)]
    show (Q.map fun kv =>
        if kv.1 = o.1 then bumpEntry t kv else kv).map _ = _
    rw [List.map_map]
    rfl

/-- An entry whose key is not among the overdue keys is untouched by the
per-entry fold. -/
theorem perEntry_not_mem (t : ℚ) (ov : List (String × PendingEntry))
    (kv0 : String × PendingEntry) (h : kv0.1 ∉ ov.map Prod.fst) :
    ov.foldl (fun x kvo => if x.1 = kvo.1 then bumpEntry t x else x) kv0 = kv0 := by
  induction ov with
  | nil => rfl
  | cons o ov ih =>
    simp only [List.map_cons, List.mem_cons, not_or] at h
    rw [List.foldl_cons, if_neg h.1]
    exact ih h.2

/-- An entry whose key appears among the overdue keys (which are distinct)
is bumped exactly once by the per-entry fold. -/
theorem perEntry_mem_once (t : ℚ) (ov : List (String × PendingEntry))
    (kv0 : String × PendingEntry) (hnd : (ov.map Prod.fst).Nodup)
    (hm : kv0.1 ∈ ov.map Prod.fst) :
    ov.foldl (fun x kvo => if x.1 = kvo.1 then bumpEntry t x else x) kv0 =
      bumpEntry t kv0 := by
  induction ov with
  | nil => simp at hm
  | cons o ov ih =>
    obtain ⟨ho, hnd2⟩ := List.nodup_cons.mp hnd
    simp only [List.map_cons, List.mem_cons] at hm
    rw [List.foldl_cons]
    rcases hm with heq | hin
    · rw [if_pos heq]
      apply perEntry_not_mem
      show (bumpEntry t kv0).1 ∉ ov.map Prod.fst
      rw [show (bumpEntry t kv0).1 = kv0.1 from rfl, heq]
      exact ho
    · have hne : kv0.1 ≠ o.1 := by
        intro hcontra
        rw [← hcontra] at ho
        exact ho hin
      rw [if_neg hne]
      exact ih hnd2 hin

/-- C3 amended: the server's retransmission scan never abandons a pending
entry — `MAX_RETRANSMISSIONS` is never consulted and entries leave the
pending map only through a matching ACK or connection close.  When the
pending keys are distinct (as Python dict keys are), a tick maps each entry
in place: every overdue entry (age above `rto`) is retransmitted once, with
its send time restamped and its ghost transmit count incremented without
bound; every other entry is untouched. -/
theorem tick_retransmits_unboundedly (s : SenderState) (t : ℚ)
    (hnd : (s.pending.map Prod.fst).Nodup) :
    (tickRetransmit s t).pending = s.pending.map (fun kv =>
      if t - kv.2.send_time > s.cc.rto then bumpEntry t kv else kv) := by
  rw [tickRetransmit_pending, foldl_retransmit_eq_map]
  apply List.map_congr_left
  intro kv hkv
  by_cases hp : t - kv.2.send_time > s.cc.rto
  · rw [if_pos hp]
    apply perEntry_mem_once
    · exact hnd.sublist ((List.filter_sublist _).map Prod.fst)
    · exact List.mem_map.mpr ⟨kv, List.mem_filter.mpr ⟨hkv, by simpa using hp⟩, rfl⟩
  · rw [if_neg hp]
    apply perEntry_not_mem
    intro hmem
    obtain ⟨kv2, hkv2, hfst⟩ := List.mem_map.mp hmem
    have hkv2P : kv2 ∈ s.pending := (List.mem_filter.mp hkv2).1
    have hpred2 : t - kv2.2.send_time > s.cc.rto := by
      simpa using (List.mem_filter.mp hkv2).2
    have : kv2 = kv := List.inj_on_of_nodup_map hnd hkv2P hkv hfst
    rw [this] at hpred2
    exact hp hpred2

/-- Witness for `tick_retransmits_unboundedly` at the counterexample's first
tick. -/
theorem tick_retransmits_unboundedly_witness :
    (tickRetransmit (senderRun
        [.sendEvt "m1" ⟨"m1", .chat, "server", "hi", "1.0", "c"⟩ 0]) 4).pending =
      (senderRun
        [.sendEvt "m1" ⟨"m1", .chat, "server", "hi", "1.0", "c"⟩ 0]).pending.map
        (fun kv =>
          if 4 - kv.2.send_time > (senderRun
            [.sendEvt "m1" ⟨"m1", .chat, "server", "hi", "1.0", "c"⟩ 0]).cc.rto then
            bumpEntry 4 kv
          else kv) :=
  tick_retransmits_unboundedly
    (senderRun [.sendEvt "m1" ⟨"m1", .chat, "server", "hi", "1.0", "c"⟩ 0]) 4 (by decide)

end TcpChat
